import Mathlib

/-!
A shallow embedding of the propagation engine of the
job-status-to-apps-adapter service (src/main.go), together with proofs of
the specified properties of its components: StatusQuery (`Unpropagated`),
the Batcher (the slicing loop in `main`), the Dispatcher
(`Propagator.Propagate`) and the LoopController (the outer `for` loop of
`main`).

External effects (the SQL store, the HTTP transport, URL parsing inside
`http.NewRequestWithContext`) are modelled as explicit inputs: the store is
a list of rows of the `job_status_updates` table, and the network outcome
of each dispatch is an environment value supplied to the function.
-/

/-- One row of the `job_status_updates` table, with the three columns the
program reads: `external_id`, `propagated` and `propagation_attempts`
(a bigint, modelled as `Int`). -/
structure StatusRecord where
  external_id : String
  propagated : Bool
  propagation_attempts : Int
deriving DecidableEq

/-- Embedding of `Unpropagated` (main.go lines 54-76): the SQL query
`select distinct external_id from job_status_updates where
propagated = false and propagation_attempts < $1` evaluated against a list
of rows: filter by the where clause, project `external_id`, and take
distinct values. -/
def Unpropagated (db : List StatusRecord) (maxRetries : Int) : List String :=
  ((db.filter fun r => !r.propagated && decide (r.propagation_attempts < maxRetries)).map
    (fun r => r.external_id)).dedup

/-- JobStatusUpdate (main.go lines 48-50): the struct POSTed to the apps
service, one string field serialized under the JSON key "uuid". -/
structure JobStatusUpdate where
  UUID : String
deriving DecidableEq

/-- Lowercase hexadecimal digit, as used by the Go JSON encoder for
\u escapes. -/
def hexDigit (n : Nat) : Char :=
  if n < 10 then Char.ofNat (48 + n) else Char.ofNat (87 + n)

/-- Escaping of one character of a Go string by `encoding/json`: quote and
backslash are backslash-escaped; `<`, `>` and `&` are HTML-escaped; newline,
carriage return and tab use their short forms; other control characters use
\u00XX; U+2028 and U+2029 are escaped; everything else is emitted as is. -/
def escapeJSONChar (c : Char) : String :=
  if c = '"' then "\\\""
  else if c = '\\' then "\\\\"
  else if c = '<' then "\\u003c"
  else if c = '>' then "\\u003e"
  else if c = '&' then "\\u0026"
  else if c = '\n' then "\\n"
  else if c = '\r' then "\\r"
  else if c = '\t' then "\\t"
  else if c.toNat < 0x20 then
    String.mk ['\\', 'u', '0', '0', hexDigit (c.toNat / 16), hexDigit (c.toNat % 16)]
  else if c.toNat = 0x2028 then "\\u2028"
  else if c.toNat = 0x2029 then "\\u2029"
  else String.singleton c

/-- Go `encoding/json` encoding of a string value: the escaped characters
between double quotes. Encoding a string value never returns an error in
Go. -/
def encodeJSONString (s : String) : String :=
  "\"" ++ String.join (s.toList.map escapeJSONChar) ++ "\""

/-- The classes of Go values relevant to `json.Marshal` error behaviour:
string values always encode; channel, function and complex values are the
unsupported kinds on which `Marshal` returns an error. The payload of this
program only ever contains a string value. -/
inductive GoJSONValue
  | str (s : String)
  | chanValue
  | funcValue
  | complexValue
deriving DecidableEq

/-- Embedding of `json.Marshal` on a single Go value: strings encode via
`encodeJSONString`; unsupported kinds return an UnsupportedTypeError. -/
def jsonMarshalValue : GoJSONValue → Except String String
  | .str s => .ok (encodeJSONString s)
  | .chanValue => .error "json: unsupported type: chan"
  | .funcValue => .error "json: unsupported type: func"
  | .complexValue => .error "json: unsupported type: complex128"

/-- Embedding of `json.Marshal(jsu)` for the `JobStatusUpdate` struct
(main.go line 105): an object with the single key "uuid" whose value is the
marshalled `UUID` field. -/
def jsonMarshalJobStatusUpdate (j : JobStatusUpdate) : Except String String :=
  match jsonMarshalValue (.str j.UUID) with
  | .error e => .error e
  | .ok v => .ok ("\x7b\"uuid\":" ++ v ++ "\x7d")

/-- An HTTP request as built by `Propagate`: method, target URL, the
content-type header it sets, and the body. -/
structure HTTPRequest where
  method : String
  url : String
  contentType : String
  body : String
deriving DecidableEq

/-- Classification of the `error` values `Propagate` can return, following
the vocabulary of the specification: `serializationError` from
`json.Marshal`, `transportError` from `http.NewRequestWithContext` or
`httpClient.Do` (request could not be built or sent, or no response was
received), `deliveryError` from the status-code check
(`errors.New("bad response")`). -/
inductive GoError
  | serializationError (msg : String)
  | transportError (msg : String)
  | deliveryError (msg : String)
deriving DecidableEq

/-- Outcome of `httpClient.Do`: either the request failed in transport with
an error, or a response with some status code was received. -/
inductive DoOutcome
  | failed (msg : String)
  | respond (statusCode : Int)
deriving DecidableEq

/-- The external HTTP environment of one call to `Propagate`: whether
`http.NewRequestWithContext` fails (it fails exactly when the configured
URI does not parse), and the outcome of `httpClient.Do` on the request it
sends. -/
structure HTTPEnv where
  newRequestError : Option String
  doOutcome : DoOutcome
deriving DecidableEq

/-- Propagator (main.go lines 80-83): holds the database handle (modelled
by the store state it gives access to) and the apps URI. -/
structure Propagator where
  db : List StatusRecord
  appsURI : String
deriving DecidableEq

/-- Embedding of `NewPropagator` (main.go lines 87-96): declares
`var err error` (zero value, i.e. nil), returns that error if it is
non-nil, otherwise the initialized `Propagator`. -/
def NewPropagator (d : List StatusRecord) (appsURI : String) : Except GoError Propagator :=
  let err : Option GoError := none
  match err with
  | some e => .error e
  | none => .ok { db := d, appsURI := appsURI }

/-- Embedding of `Propagator.Propagate` (main.go lines 99-141). Returns the
result, the list of HTTP requests handed to `httpClient.Do` in order, and
the store state afterwards. Steps, as in the source: marshal the
`JobStatusUpdate` (return the error on failure); build the POST request to
`p.appsURI` (return the error on failure, nothing sent); set the
content-type header to application/json; execute the request (return the
error on failure); return `errors.New("bad response")` when the status code
is below 200 or above 299, nil otherwise. No statement touches `p.db`. -/
def Propagator.Propagate (p : Propagator) (env : HTTPEnv) (uuid : String) :
    Except GoError Unit × List HTTPRequest × List StatusRecord :=
  let jsu : JobStatusUpdate := { UUID := uuid }
  match jsonMarshalJobStatusUpdate jsu with
  | .error e => (.error (.serializationError e), [], p.db)
  | .ok msg =>
    match env.newRequestError with
    | some e => (.error (.transportError e), [], p.db)
    | none =>
      let req : HTTPRequest :=
        { method := "POST", url := p.appsURI, contentType := "application/json", body := msg }
      match env.doOutcome with
      | .failed e => (.error (.transportError e), [req], p.db)
      | .respond code =>
        if code < 200 || code > 299 then (.error (.deliveryError "bad response"), [req], p.db)
        else (.ok (), [req], p.db)

/-- Embedding of the batching loop of `main` (main.go lines 228-231):
while batchSize < len(unpropped), move the first batchSize elements of
unpropped onto the end of batches; afterwards append the remainder as the
final batch. The loop is modelled with explicit fuel; when the batch size
is positive, fuel equal to the input length always suffices (the Go loop
would diverge for batch size 0 on a nonempty input). -/
def batchLoop (batchSize : Nat) : Nat → List String → List (List String) → List (List String)
  | 0, unpropped, batches => batches ++ [unpropped]
  | fuel + 1, unpropped, batches =>
    if batchSize < unpropped.length then
      batchLoop batchSize fuel (unpropped.drop batchSize) (batches ++ [unpropped.take batchSize])
    else batches ++ [unpropped]

/-- The Batcher: the batching loop of `main` run on the candidate list with
an empty initial `batches`, with fuel equal to the input length. -/
def goBatches (batchSize : Nat) (unpropped : List String) : List (List String) :=
  batchLoop batchSize unpropped.length unpropped []

/-- Embedding of the body of one propagator goroutine (main.go lines
237-254): construct a Propagator; on error only log; then call Propagate
and on error only log. The goroutine never aborts anything beyond its own
dispatch. Returns the dispatch result for the one candidate. The
`.error` branch of `NewPropagator` is unreachable (the Go code would go on
to dereference a nil pointer there). -/
def dispatchOne (db : List StatusRecord) (appsURI : String) (env : HTTPEnv)
    (jobExtID : String) : Except GoError Unit :=
  match NewPropagator db appsURI with
  | .ok proper => (proper.Propagate env jobExtID).1
  | .error e => .error e

/-- The external environment of one cycle of the loop in `main`: the store
contents at query time, whether the query fails (and with what message),
and the HTTP environment each dispatched candidate meets. -/
structure CycleEnv where
  db : List StatusRecord
  queryError : Option String
  httpEnv : String → HTTPEnv

/-- Result of one cycle of the loop in `main`: either `log.Fatal` ended the
process with the query error, or the cycle completed with one dispatch
result per candidate, in batch order. -/
inductive CycleResult
  | fatal (msg : String)
  | completed (results : List (String × Except GoError Unit))

/-- Embedding of one iteration of the outer `for` loop of `main` (main.go
lines 217-261): call `Unpropagated` (a query error is `log.Fatal`, ending
the process), slice the result into batches, and for each batch in order
dispatch every member, collecting each result. -/
def runCycle (batchSize : Nat) (maxRetries : Int) (appsURI : String)
    (cenv : CycleEnv) : CycleResult :=
  match cenv.queryError with
  | some e => .fatal e
  | none =>
    let unpropped := Unpropagated cenv.db maxRetries
    let batches := goBatches batchSize unpropped
    .completed
      ((batches.map fun batch =>
        batch.map fun jobExtID =>
          (jobExtID, dispatchOne cenv.db appsURI (cenv.httpEnv jobExtID) jobExtID)).flatten)

/-- Embedding of the outer `for` loop of `main` across cycles, driven by a
list of per-cycle environments: each cycle runs in turn; a fatal cycle ends
the process, so no later cycle runs. The trace of cycle results is
returned. -/
def runLoop (batchSize : Nat) (maxRetries : Int) (appsURI : String) :
    List CycleEnv → List CycleResult
  | [] => []
  | cenv :: rest =>
    match runCycle batchSize maxRetries appsURI cenv with
    | .fatal e => [.fatal e]
    | .completed rs => .completed rs :: runLoop batchSize maxRetries appsURI rest

/-- Scheduling events of the dispatch phase of one cycle: `start b i` is
the launch (`go func...`, preceded by `wg.Add(1)`) of the goroutine for the
i-th member of batch b, `finish b i` is its completion (`wg.Done`, deferred
at goroutine entry). -/
inductive Event
  | start (b i : Nat)
  | finish (b i : Nat)
deriving DecidableEq

/-- State of the dispatch phase of one cycle (main.go lines 233-258): the
index of the batch the main goroutine is on, how many goroutines of that
batch it has launched, the launched-but-unfinished tasks (the tasks the
cycle WaitGroup currently counts), and the event trace, most recent
first. -/
structure LoopState where
  batchIdx : Nat
  launched : Nat
  pending : List (Nat × Nat)
  trace : List Event
deriving DecidableEq

/-- Initial state of the dispatch phase: at the first batch, nothing
launched, nothing pending. -/
def loopInit : LoopState :=
  { batchIdx := 0, launched := 0, pending := [], trace := [] }

/-- Small-step semantics of the dispatch phase of one cycle against a fixed
batch list. The main goroutine may launch the next member of its current
batch (`wg.Add(1)` then `go func`); any pending task may finish at any
moment (goroutines run concurrently); and the main goroutine moves to the
next batch only when it has launched the whole current batch and `wg.Wait()`
has returned, i.e. the WaitGroup counter is zero (no task pending). -/
inductive Step (batches : List (List String)) : LoopState → LoopState → Prop
  | launch (s : LoopState) (hb : s.batchIdx < batches.length)
      (hl : s.launched < (batches.getD s.batchIdx []).length) :
      Step batches s
        { s with launched := s.launched + 1,
                 pending := (s.batchIdx, s.launched) :: s.pending,
                 trace := Event.start s.batchIdx s.launched :: s.trace }
  | complete (s : LoopState) (p : Nat × Nat) (hp : p ∈ s.pending) :
      Step batches s
        { s with pending := s.pending.erase p,
                 trace := Event.finish p.1 p.2 :: s.trace }
  | nextBatch (s : LoopState) (hb : s.batchIdx < batches.length)
      (hl : s.launched = (batches.getD s.batchIdx []).length)
      (hp : s.pending = []) :
      Step batches s { s with batchIdx := s.batchIdx + 1, launched := 0 }

/-- A state of the dispatch phase is reachable when a finite interleaving
of steps leads to it from the initial state. -/
def Reachable (batches : List (List String)) (s : LoopState) : Prop :=
  Relation.ReflTransGen (Step batches) loopInit s

/-- The invariant of the dispatch phase: every pending task belongs to the
current batch and was launched; the number of pending tasks never exceeds
the number launched in the current batch, itself at most the batch length;
every finished batch has all its finish events in the trace; every launched
member of the current batch is pending or finished; and every start event
of a batch was preceded (deeper in the trace) by the finish events of all
members of all earlier batches. -/
def LoopInv (batches : List (List String)) (s : LoopState) : Prop :=
  (∀ p ∈ s.pending, p.1 = s.batchIdx) ∧
  s.pending.length ≤ s.launched ∧
  s.launched ≤ (batches.getD s.batchIdx []).length ∧
  (∀ b < s.batchIdx, ∀ i < (batches.getD b []).length, Event.finish b i ∈ s.trace) ∧
  (∀ i < s.launched, (s.batchIdx, i) ∈ s.pending ∨ Event.finish s.batchIdx i ∈ s.trace) ∧
  (∀ pre b i post, s.trace = pre ++ Event.start b i :: post →
    ∀ b' < b, ∀ j < (batches.getD b' []).length, Event.finish b' j ∈ post)

/-- Running the batching loop with accumulator `acc` prepends `acc` to the
result of running it with an empty accumulator. -/
theorem batchLoop_acc (B : Nat) :
    ∀ (fuel : Nat) (xs : List String) (acc : List (List String)),
      batchLoop B fuel xs acc = acc ++ batchLoop B fuel xs [] := by
  intro fuel
  induction fuel with
  | zero => intro xs acc; simp [batchLoop]
  | succ n ih =>
    intro xs acc
    by_cases h : B < xs.length
    · simp only [batchLoop, if_pos h]
      rw [ih (xs.drop B) (acc ++ [xs.take B]), ih (xs.drop B) ([] ++ [xs.take B])]
      simp
    · simp [batchLoop, if_neg h]

/-- With a positive batch size and enough fuel, the chunks produced by the
batching loop concatenate back to the input. -/
theorem batchLoop_flatten (B : Nat) (hB : 0 < B) :
    ∀ (fuel : Nat) (xs : List String), xs.length ≤ fuel →
      (batchLoop B fuel xs []).flatten = xs := by
  intro fuel
  induction fuel with
  | zero =>
    intro xs hxs
    have : xs = [] := List.length_eq_zero.mp (Nat.le_zero.mp hxs)
    simp [batchLoop, this]
  | succ n ih =>
    intro xs hxs
    by_cases h : B < xs.length
    · simp only [batchLoop, if_pos h]
      rw [batchLoop_acc]
      have hdrop : (xs.drop B).length ≤ n := by
        rw [List.length_drop]
        omega
      simp [ih (xs.drop B) hdrop]
    · simp [batchLoop, if_neg h]

/-- With a positive batch size and enough fuel, every chunk produced by the
batching loop has length at most the batch size. -/
theorem batchLoop_chunk_le (B : Nat) (hB : 0 < B) :
    ∀ (fuel : Nat) (xs : List String), xs.length ≤ fuel →
      ∀ c ∈ batchLoop B fuel xs [], c.length ≤ B := by
  intro fuel
  induction fuel with
  | zero =>
    intro xs hxs c hc
    have : xs = [] := List.length_eq_zero.mp (Nat.le_zero.mp hxs)
    subst this
    simp [batchLoop] at hc
    simp [hc]
  | succ n ih =>
    intro xs hxs c hc
    by_cases h : B < xs.length
    · simp only [batchLoop, if_pos h] at hc
      rw [batchLoop_acc] at hc
      have hdrop : (xs.drop B).length ≤ n := by
        rw [List.length_drop]
        omega
      rcases List.mem_append.mp hc with hc | hc
      · simp at hc
        simp [hc]
      · exact ih (xs.drop B) hdrop c hc
    · simp only [batchLoop, if_neg h] at hc
      simp at hc
      subst hc
      omega

/-- The Batcher never drops, duplicates or reorders: the chunks flatten to
the input (positive batch size). -/
theorem goBatches_flatten (B : Nat) (hB : 0 < B) (xs : List String) :
    (goBatches B xs).flatten = xs :=
  batchLoop_flatten B hB xs.length xs le_rfl

/-- Every chunk the Batcher produces has length at most the batch size
(positive batch size). -/
theorem goBatches_chunk_le (B : Nat) (hB : 0 < B) (xs : List String) :
    ∀ c ∈ goBatches B xs, c.length ≤ B :=
  batchLoop_chunk_le B hB xs.length xs le_rfl

/-- C1: when a response is received, Propagate returns nil exactly when the
status code lies in [200, 299]; any status outside that range yields the
"bad response" delivery error. -/
theorem c1_propagate_success_iff_status_2xx (p : Propagator) (env : HTTPEnv) (uuid : String)
    (code : Int) (hreq : env.newRequestError = none)
    (hdo : env.doOutcome = DoOutcome.respond code) :
    ((p.Propagate env uuid).1 = .ok () ↔ 200 ≤ code ∧ code ≤ 299) ∧
    ((code < 200 ∨ 299 < code) →
      (p.Propagate env uuid).1 = .error (.deliveryError "bad response")) := by
  have hstep : (p.Propagate env uuid).1 =
      if code < 200 || code > 299 then
        Except.error (GoError.deliveryError "bad response")
      else Except.ok () := by
    simp only [Propagator.Propagate, jsonMarshalJobStatusUpdate, jsonMarshalValue, hreq, hdo]
    split <;> rfl
  rw [hstep]
  split
  case isTrue hc =>
    simp only [Bool.or_eq_true, decide_eq_true_eq] at hc
    refine ⟨⟨fun h => by simp at h, fun h => absurd hc (by omega)⟩, fun _ => rfl⟩
  case isFalse hc =>
    simp only [Bool.or_eq_true, decide_eq_true_eq, not_or, not_lt] at hc
    refine ⟨⟨fun _ => by omega, fun _ => rfl⟩, fun h => absurd h (by omega)⟩

/-- Witness for C1 at the four boundary status codes: 199 and 300 fail with
the delivery error, 200 and 299 succeed. -/
theorem c1_propagate_boundary_witness :
    ((Propagator.mk [] "uri").Propagate ⟨none, .respond 199⟩ "j").1 =
        .error (.deliveryError "bad response") ∧
    ((Propagator.mk [] "uri").Propagate ⟨none, .respond 200⟩ "j").1 = .ok () ∧
    ((Propagator.mk [] "uri").Propagate ⟨none, .respond 299⟩ "j").1 = .ok () ∧
    ((Propagator.mk [] "uri").Propagate ⟨none, .respond 300⟩ "j").1 =
        .error (.deliveryError "bad response") :=
  ⟨(c1_propagate_success_iff_status_2xx _ _ "j" 199 rfl rfl).2 (by omega),
   (c1_propagate_success_iff_status_2xx _ _ "j" 200 rfl rfl).1.mpr (by omega),
   (c1_propagate_success_iff_status_2xx _ _ "j" 299 rfl rfl).1.mpr (by omega),
   (c1_propagate_success_iff_status_2xx _ _ "j" 300 rfl rfl).2 (by omega)⟩

/-- C2: for a positive batch size, the Batcher produces chunks of length at
most the batch size whose in-order concatenation is exactly the input; as a
function of the input it is deterministic by construction. -/
theorem c2_batcher_partition (B : Nat) (xs : List String) (hB : 0 < B) :
    (∀ c ∈ goBatches B xs, c.length ≤ B) ∧ (goBatches B xs).flatten = xs :=
  ⟨goBatches_chunk_le B hB xs, goBatches_flatten B hB xs⟩

/-- Witness for C2 at batch size 2 on a three-element input. -/
theorem c2_batcher_partition_witness :
    0 < 2 ∧ ((∀ c ∈ goBatches 2 ["a", "b", "c"], c.length ≤ 2) ∧
      (goBatches 2 ["a", "b", "c"]).flatten = ["a", "b", "c"]) :=
  ⟨by decide, c2_batcher_partition 2 ["a", "b", "c"] (by decide)⟩

/-- C3 (amended): Unpropagated returns exactly the distinct external_id
values possessed by at least one row with propagated = false and
propagation_attempts below the ceiling, with no duplicates. -/
theorem c3_unpropagated_characterization (db : List StatusRecord) (T : Int) :
    (∀ id, id ∈ Unpropagated db T ↔
      ∃ r ∈ db, r.external_id = id ∧ r.propagated = false ∧ r.propagation_attempts < T) ∧
    (Unpropagated db T).Nodup := by
  constructor
  · intro id
    unfold Unpropagated
    rw [List.mem_dedup, List.mem_map]
    constructor
    · rintro ⟨r, hr, rfl⟩
      rw [List.mem_filter] at hr
      refine ⟨r, hr.1, rfl, ?_, ?_⟩
      · have := hr.2
        simp only [Bool.and_eq_true, Bool.not_eq_true'] at this
        exact this.1
      · have := hr.2
        simp only [Bool.and_eq_true, decide_eq_true_eq] at this
        exact this.2
    · rintro ⟨r, hr, hid, hprop, hatt⟩
      exact ⟨r, List.mem_filter.mpr ⟨hr, by simp [hprop, hatt]⟩, hid⟩
  · exact List.nodup_dedup _

/-- Counterexample to C3 as stated: with two rows sharing the external_id
"x", one eligible and one with propagated = true and attempts at the
ceiling, the query still returns "x" — an identifier that some row records
as already propagated with attempts not below the ceiling. -/
theorem c3_counterexample :
    Unpropagated [⟨"x", false, 0⟩, ⟨"x", true, 5⟩] 3 = ["x"] ∧
    StatusRecord.mk "x" true 5 ∈ [StatusRecord.mk "x" false 0, StatusRecord.mk "x" true 5] ∧
    (StatusRecord.mk "x" true 5).external_id = "x" ∧
    (StatusRecord.mk "x" true 5).propagated = true ∧
    (3 : Int) ≤ (StatusRecord.mk "x" true 5).propagation_attempts := by
  decide

/-- C4: whenever the request can be built, Propagate hands exactly one
request to the HTTP client: a POST to the configured apps URI with the
content-type header application/json and the marshalled payload as body,
whatever the transport outcome. -/
theorem c4_single_post_request (p : Propagator) (env : HTTPEnv) (uuid : String)
    (hreq : env.newRequestError = none) :
    (p.Propagate env uuid).2.1 =
      [{ method := "POST", url := p.appsURI, contentType := "application/json",
         body := "\x7b\"uuid\":" ++ encodeJSONString uuid ++ "\x7d" }] := by
  simp only [Propagator.Propagate, jsonMarshalJobStatusUpdate, jsonMarshalValue, hreq]
  cases hdo : env.doOutcome with
  | failed e => rfl
  | respond code => split <;> first | rfl | (split <;> rfl)

/-- Witness for C4: the single request issued for candidate "job-a" has the
literal body with the uuid key. -/
theorem c4_single_post_request_witness :
    (HTTPEnv.mk none (.respond 200)).newRequestError = none ∧
    ((Propagator.mk [] "http://apps/endpoint").Propagate ⟨none, .respond 200⟩ "job-a").2.1 =
      [⟨"POST", "http://apps/endpoint", "application/json", "\x7b\"uuid\":\"job-a\"\x7d"⟩] :=
  ⟨rfl, by rw [c4_single_post_request _ _ _ rfl]; rfl⟩

/-- C7: Propagate never touches the store: whatever the outcome of the
dispatch, the store state after the call is the store state before it, so
in particular no propagated flag is set and no attempt counter is
incremented by the Dispatcher. -/
theorem c7_propagate_preserves_store (p : Propagator) (env : HTTPEnv) (uuid : String) :
    (p.Propagate env uuid).2.2 = p.db := by
  obtain ⟨nre, dout⟩ := env
  cases nre <;> cases dout <;>
    simp only [Propagator.Propagate, jsonMarshalJobStatusUpdate, jsonMarshalValue] <;>
    first | rfl | (split <;> rfl)

/-- C9: NewPropagator always returns the Propagator holding the given
database handle and apps URI, and never an error: the error branch guards a
freshly declared nil error and is unreachable. -/
theorem c9_newpropagator_never_fails (d : List StatusRecord) (uri : String) :
    NewPropagator d uri = .ok { db := d, appsURI := uri } := rfl

/-- C10: marshalling the single-string-field payload always succeeds with
the uuid object, so Propagate can never return a serialization error; every
possible result is success, a transport error or the delivery error. -/
theorem c10_serialization_never_fails (p : Propagator) (env : HTTPEnv) (uuid : String) :
    jsonMarshalJobStatusUpdate { UUID := uuid } =
      .ok ("\x7b\"uuid\":" ++ encodeJSONString uuid ++ "\x7d") ∧
    (∀ msg, (p.Propagate env uuid).1 ≠ .error (.serializationError msg)) ∧
    ((p.Propagate env uuid).1 = .ok () ∨
      (∃ msg, (p.Propagate env uuid).1 = .error (.transportError msg)) ∨
      (p.Propagate env uuid).1 = .error (.deliveryError "bad response")) := by
  refine ⟨rfl, ?_⟩
  obtain ⟨nre, dout⟩ := env
  cases nre with
  | some e =>
    exact ⟨fun msg => by
        simp [Propagator.Propagate, jsonMarshalJobStatusUpdate, jsonMarshalValue],
      Or.inr (Or.inl ⟨e, rfl⟩)⟩
  | none =>
    cases dout with
    | failed e =>
      exact ⟨fun msg => by
          simp [Propagator.Propagate, jsonMarshalJobStatusUpdate, jsonMarshalValue],
        Or.inr (Or.inl ⟨e, rfl⟩)⟩
    | respond code =>
      constructor
      · intro msg
        simp only [Propagator.Propagate, jsonMarshalJobStatusUpdate, jsonMarshalValue]
        split <;> simp
      · simp only [Propagator.Propagate, jsonMarshalJobStatusUpdate, jsonMarshalValue]
        split
        · exact Or.inr (Or.inr rfl)
        · exact Or.inl rfl

/-- C5: with a positive batch size, whenever the query succeeds the cycle
completes with one dispatch result per candidate — whatever errors the
individual dispatches meet — the dispatched candidates are exactly the
query result in order, and the loop goes on to the next cycle. -/
theorem c5_failure_isolation (B : Nat) (maxRetries : Int) (appsURI : String)
    (cenv : CycleEnv) (rest : List CycleEnv) (hB : 0 < B) (hq : cenv.queryError = none) :
    ∃ rs, runCycle B maxRetries appsURI cenv = .completed rs ∧
      rs.map Prod.fst = Unpropagated cenv.db maxRetries ∧
      runLoop B maxRetries appsURI (cenv :: rest) =
        .completed rs :: runLoop B maxRetries appsURI rest := by
  have hcycle : runCycle B maxRetries appsURI cenv = .completed
      ((goBatches B (Unpropagated cenv.db maxRetries)).map (fun batch =>
        batch.map fun jobExtID =>
          (jobExtID, dispatchOne cenv.db appsURI (cenv.httpEnv jobExtID) jobExtID))).flatten := by
    simp only [runCycle, hq]
  refine ⟨_, hcycle, ?_, ?_⟩
  · rw [List.map_flatten, List.map_map]
    have hcomp : (List.map (Prod.fst (β := Except GoError Unit)) ∘ fun batch =>
        batch.map fun jobExtID =>
          (jobExtID, dispatchOne cenv.db appsURI (cenv.httpEnv jobExtID) jobExtID)) =
        fun batch : List String => batch := by
      funext batch
      simp [Function.comp_def]
    rw [hcomp]
    simpa using goBatches_flatten B hB (Unpropagated cenv.db maxRetries)
  · simp only [runLoop, hcycle]

/-- Witness for C5: with two candidates of which the downstream rejects
"job-a" with status 500 and accepts "job-b" with status 200, the cycle
still dispatches both and the loop proceeds. -/
theorem c5_failure_isolation_witness :
    0 < 1000 ∧
    (CycleEnv.mk [⟨"job-a", false, 0⟩, ⟨"job-b", false, 0⟩] none
      (fun id => ⟨none, .respond (if id = "job-a" then 500 else 200)⟩)).queryError = none ∧
    (∃ rs,
      runCycle 1000 3 "uri"
        (CycleEnv.mk [⟨"job-a", false, 0⟩, ⟨"job-b", false, 0⟩] none
          (fun id => ⟨none, .respond (if id = "job-a" then 500 else 200)⟩)) = .completed rs ∧
      rs.map Prod.fst =
        Unpropagated (CycleEnv.mk [⟨"job-a", false, 0⟩, ⟨"job-b", false, 0⟩] none
          (fun id => ⟨none, .respond (if id = "job-a" then 500 else 200)⟩)).db 3 ∧
      runLoop 1000 3 "uri"
        ((CycleEnv.mk [⟨"job-a", false, 0⟩, ⟨"job-b", false, 0⟩] none
          (fun id => ⟨none, .respond (if id = "job-a" then 500 else 200)⟩)) :: []) =
        .completed rs :: runLoop 1000 3 "uri" []) :=
  ⟨by decide, rfl,
    c5_failure_isolation 1000 3 "uri"
      (CycleEnv.mk [⟨"job-a", false, 0⟩, ⟨"job-b", false, 0⟩] none
        (fun id => ⟨none, .respond (if id = "job-a" then 500 else 200)⟩)) []
      (by decide) rfl⟩

/-- C6: a query error makes the cycle fatal: the cycle performs no batching
or dispatching, and the process run ends with no further cycle. -/
theorem c6_query_error_fatal (B : Nat) (maxRetries : Int) (appsURI : String)
    (cenv : CycleEnv) (rest : List CycleEnv) (e : String) (hq : cenv.queryError = some e) :
    runCycle B maxRetries appsURI cenv = .fatal e ∧
    runLoop B maxRetries appsURI (cenv :: rest) = [.fatal e] := by
  have h : runCycle B maxRetries appsURI cenv = .fatal e := by
    simp only [runCycle, hq]
  exact ⟨h, by simp only [runLoop, h]⟩

/-- Witness for C6: a cycle whose query fails with "connection refused" is
fatal and ends the loop even though further cycle environments follow. -/
theorem c6_query_error_fatal_witness :
    (CycleEnv.mk [] (some "connection refused") (fun _ => ⟨none, .respond 200⟩)).queryError =
      some "connection refused" ∧
    runCycle 5 3 "uri"
      (CycleEnv.mk [] (some "connection refused") (fun _ => ⟨none, .respond 200⟩)) =
      .fatal "connection refused" ∧
    runLoop 5 3 "uri"
      ((CycleEnv.mk [] (some "connection refused") (fun _ => ⟨none, .respond 200⟩)) ::
        (CycleEnv.mk [] none (fun _ => ⟨none, .respond 200⟩)) :: []) =
      [.fatal "connection refused"] :=
  ⟨rfl,
    (c6_query_error_fatal 5 3 "uri" _ ((CycleEnv.mk [] none (fun _ => ⟨none, .respond 200⟩)) :: [])
      "connection refused" rfl).1,
    (c6_query_error_fatal 5 3 "uri" _ ((CycleEnv.mk [] none (fun _ => ⟨none, .respond 200⟩)) :: [])
      "connection refused" rfl).2⟩

/-- Looking up any position in a list of chunks all bounded by B yields a
chunk of length at most B (out-of-range positions give the empty chunk). -/
theorem getD_length_le (B : Nat) :
    ∀ (l : List (List String)) (n : Nat), (∀ c ∈ l, c.length ≤ B) →
      (l.getD n []).length ≤ B := by
  intro l
  induction l with
  | nil => intro n _; simp [List.getD]
  | cons c l ih =>
    intro n h
    cases n with
    | zero => exact h c (List.mem_cons_self _ _)
    | succ n =>
      have := ih n (fun d hd => h d (List.mem_cons_of_mem _ hd))
      simpa [List.getD_cons_succ] using this

/-- The invariant holds in the initial state of the dispatch phase. -/
theorem loopInv_init (batches : List (List String)) : LoopInv batches loopInit := by
  refine ⟨?_, ?_, ?_, ?_, ?_, ?_⟩
  · intro p hp; simp [loopInit] at hp
  · simp [loopInit]
  · simp [loopInit]
  · intro b hb; simp [loopInit] at hb
  · intro i hi; simp [loopInit] at hi
  · intro pre b i post htr
    exact absurd htr (by simp [loopInit])

/-- Every step of the dispatch phase preserves the invariant. -/
theorem loopInv_step (batches : List (List String)) (s t : LoopState)
    (hstep : Step batches s t) (ih : LoopInv batches s) : LoopInv batches t := by
  obtain ⟨ih1, ih2, ih3, ih4, ih5, ih6⟩ := ih
  cases hstep with
  | launch hb hl =>
    refine ⟨?_, ?_, ?_, ?_, ?_, ?_⟩
    · intro p hp
      dsimp only at hp ⊢
      rcases List.mem_cons.mp hp with rfl | hp
      · rfl
      · exact ih1 p hp
    · dsimp only
      simpa using Nat.succ_le_succ ih2
    · dsimp only
      exact hl
    · intro b hb' i hi
      dsimp only at hb' hi ⊢
      exact List.mem_cons_of_mem _ (ih4 b hb' i hi)
    · intro i hi
      dsimp only at hi ⊢
      rcases Nat.lt_succ_iff_lt_or_eq.mp hi with hi | rfl
      · rcases ih5 i hi with h | h
        · exact Or.inl (List.mem_cons_of_mem _ h)
        · exact Or.inr (List.mem_cons_of_mem _ h)
      · exact Or.inl (List.mem_cons_self _ _)
    · intro pre b i post htr b' hb'' j hj
      dsimp only at htr
      cases pre with
      | nil =>
        simp only [List.nil_append] at htr
        injection htr with h1 h2
        injection h1 with hb1 hi1
        subst hb1
        subst h2
        exact ih4 b' hb'' j hj
      | cons e pre' =>
        simp only [List.cons_append] at htr
        injection htr with h1 h2
        exact ih6 pre' b i post h2 b' hb'' j hj
  | complete p hp =>
    refine ⟨?_, ?_, ?_, ?_, ?_, ?_⟩
    · intro q hq
      dsimp only at hq ⊢
      exact ih1 q (List.mem_of_mem_erase hq)
    · dsimp only
      exact le_trans (List.Sublist.length_le (List.erase_sublist p s.pending)) ih2
    · dsimp only
      exact ih3
    · intro b hb' i hi
      dsimp only at hb' hi ⊢
      exact List.mem_cons_of_mem _ (ih4 b hb' i hi)
    · intro i hi
      dsimp only at hi ⊢
      rcases ih5 i hi with h | h
      · by_cases hpq : (s.batchIdx, i) = p
        · subst hpq
          exact Or.inr (List.mem_cons_self _ _)
        · exact Or.inl ((List.mem_erase_of_ne hpq).mpr h)
      · exact Or.inr (List.mem_cons_of_mem _ h)
    · intro pre b i post htr b' hb'' j hj
      dsimp only at htr
      cases pre with
      | nil =>
        simp only [List.nil_append] at htr
        injection htr with h1 h2
        exact absurd h1 (by simp)
      | cons e pre' =>
        simp only [List.cons_append] at htr
        injection htr with h1 h2
        exact ih6 pre' b i post h2 b' hb'' j hj
  | nextBatch hb hl hp =>
    refine ⟨?_, ?_, ?_, ?_, ?_, ?_⟩
    · intro q hq
      dsimp only at hq
      rw [hp] at hq
      exact absurd hq (List.not_mem_nil q)
    · dsimp only
      simp [hp]
    · dsimp only
      exact Nat.zero_le _
    · intro b hb' i hi
      dsimp only at hb' hi ⊢
      rcases Nat.lt_succ_iff_lt_or_eq.mp hb' with hb' | rfl
      · exact ih4 b hb' i hi
      · rcases ih5 i (hl ▸ hi) with h | h
        · rw [hp] at h
          exact absurd h (List.not_mem_nil _)
        · exact h
    · intro i hi
      dsimp only at hi
      exact absurd hi (Nat.not_lt_zero i)
    · intro pre b i post htr b' hb'' j hj
      dsimp only at htr
      exact ih6 pre b i post htr b' hb'' j hj

/-- The invariant holds in every reachable state of the dispatch phase. -/
theorem loopInv_of_reachable (batches : List (List String)) (s : LoopState)
    (h : Reachable batches s) : LoopInv batches s := by
  unfold Reachable at h
  induction h with
  | refl => exact loopInv_init batches
  | tail hsteps hstep ih => exact loopInv_step batches _ _ hstep ih

/-- C8: in every reachable state of the dispatch phase over the batches the
Batcher produced (positive batch size), at most batch-size tasks are in
flight, every in-flight task belongs to the batch currently being
processed, and whenever a task of batch b was started, every task of every
earlier batch had already finished: batches are processed strictly in
order with a completion barrier between them. -/
theorem c8_batch_barrier (B : Nat) (unpropped : List String) (hB : 0 < B)
    (s : LoopState) (h : Reachable (goBatches B unpropped) s) :
    s.pending.length ≤ B ∧
    (∀ p ∈ s.pending, p.1 = s.batchIdx) ∧
    (∀ pre b i post, s.trace = pre ++ Event.start b i :: post →
      ∀ b' < b, ∀ j < ((goBatches B unpropped).getD b' []).length,
        Event.finish b' j ∈ post) := by
  obtain ⟨h1, h2, h3, h4, h5, h6⟩ := loopInv_of_reachable _ _ h
  exact ⟨h2.trans (h3.trans (getD_length_le B _ _ (goBatches_chunk_le B hB unpropped))), h1, h6⟩

/-- Witness for C8: the state reached by launching the first task of the
first batch of goBatches 1 ["a", "b"] has one task in flight, within the
batch-size bound. -/
theorem c8_batch_barrier_witness :
    0 < 1 ∧ (⟨0, 1, [(0, 0)], [Event.start 0 0]⟩ : LoopState).pending.length ≤ 1 :=
  ⟨Nat.one_pos,
    (c8_batch_barrier 1 ["a", "b"] Nat.one_pos ⟨0, 1, [(0, 0)], [Event.start 0 0]⟩
      (Relation.ReflTransGen.single
        (Step.launch loopInit (by decide) (by decide)))).1⟩
